import Mathlib

/-!
Verification development for the open-MaStR prototype mirror and bulk loader.

The definitions below are a shallow embedding of
`open_mastr/soap_api/prototype_mastr_reflected.py` (incremental sync engine:
`backfill_basic`, `retrieve_additional_data`) and
`open_mastr/xml_download/utils_write_sqlite.py` (bulk loader:
`convert_mastr_xml_to_sqlite`, `add_table_to_sqlite_database`,
`add_missing_column_to_table`, `delete_wrong_xml_entry`).
Timestamps are modelled as natural numbers, database tables as Lean lists of
rows, and the remote SOAP client as an explicit function parameter.
-/

namespace OpenMastr

/-- One row of the `basic_units` table (`db.BasicUnit`).  Field names follow
the MaStR attribute names used by `backfill_basic`; `DatumLetzeAktualisierung`
(last modification timestamp) is modelled as a natural number; the three
nullable foreign references are `Option`s. -/
structure BasicUnit where
  EinheitMastrNummer : String
  Einheittyp : String
  DatumLetzeAktualisierung : Nat
  EegMastrNummer : Option String
  KwkMastrNummer : Option String
  GenMastrNummer : Option String
deriving DecidableEq, Repr

/-- One row of the `additional_data_requested` table
(`db.AdditionalDataRequested`): a pending obligation to fetch one detail
record (`data_type` one of unit_data, eeg_data, kwk_data, permit_data). -/
structure AdditionalDataRequested where
  EinheitMastrNummer : String
  additional_data_id : String
  technology : String
  data_type : String
  request_date : Nat
deriving DecidableEq, Repr

/-- State of the mirror touched by `backfill_basic`: the `basic_units` table
and the `additional_data_requested` table. -/
structure MirrorState where
  basic_units : List BasicUnit
  requests : List AdditionalDataRequested
deriving DecidableEq, Repr

/-- The `unit_type_map` dictionary of `MaStRReflected.__init__`
(lines 101-114): MaStR `Einheittyp` to technology name. -/
def unit_type_map : List (String × String) :=
  [("Windeinheit", "wind"),
   ("Solareinheit", "solar"),
   ("Biomasse", "biomass"),
   ("Wasser", "hydro"),
   ("Geothermie", "gsgk"),
   ("Verbrennung", "combustion"),
   ("Kernenergie", "nuclear"),
   ("Stromspeichereinheit", "storage"),
   ("Gasspeichereinheit", "gas_storage"),
   ("Gasverbrauchseinheit", "gas_consumer"),
   ("Stromverbrauchseinheit", "consumer"),
   ("Gaserzeugungseinheit", "gas_producer")]

/-- `reversed_unit_type_map` (line 163): technology name back to
`Einheittyp`. -/
def reversed_unit_type_map : List (String × String) :=
  unit_type_map.map (fun p => (p.2, p.1))

/-- Lookup in `unit_type_map`; in Python a missing key raises `KeyError`, the
model totalises with an empty-string default (the claims only involve mapped
unit types). -/
def techOf (u : BasicUnit) : String :=
  (unit_type_map.lookup u.Einheittyp).getD ""

/-- Dedup-within-chunk, lines 219-224: keep a unit exactly when its
`EinheitMastrNummer` does not occur among the later elements of the chunk
(the list comprehension keeps `unit` when its id is not in
`basic_units_chunk[n + 1:]`), i.e. last occurrence wins. -/
def dedupChunk : List BasicUnit → List BasicUnit
  | [] => []
  | u :: rest =>
    if rest.any (fun v => v.EinheitMastrNummer == u.EinheitMastrNummer) then
      dedupChunk rest
    else
      u :: dedupChunk rest

/-- Membership test behind `common_ids` (lines 228-229): the unit id already
occurs in the `basic_units` table. -/
def isCommon (db : List BasicUnit) (u : BasicUnit) : Bool :=
  db.any (fun r => r.EinheitMastrNummer == u.EinheitMastrNummer)

/-- The `exists().where(...)` check of lines 237-240: some stored row with
the same id has a strictly older `DatumLetzeAktualisierung`. -/
def hasOlder (db : List BasicUnit) (u : BasicUnit) : Bool :=
  db.any (fun r =>
    r.EinheitMastrNummer == u.EinheitMastrNummer &&
    r.DatumLetzeAktualisierung < u.DatumLetzeAktualisierung)

/-- `session.merge(db.BasicUnit(**unit))` (line 242): replace every stored
row carrying the unit's primary key by the incoming row. -/
def mergeUnit (db : List BasicUnit) (u : BasicUnit) : List BasicUnit :=
  db.map (fun r => if r.EinheitMastrNummer == u.EinheitMastrNummer then u else r)

/-- The `extended_data` request derived for every inserted-or-updated unit
(lines 257-265). -/
def extendedReq (now : Nat) (u : BasicUnit) : AdditionalDataRequested :=
  ⟨u.EinheitMastrNummer, u.EinheitMastrNummer, techOf u, "unit_data", now⟩

/-- The `eeg_data` request, present only for a non-null `EegMastrNummer`
(lines 268-277). -/
def eegReqs (now : Nat) (u : BasicUnit) : List AdditionalDataRequested :=
  match u.EegMastrNummer with
  | some e => [⟨u.EinheitMastrNummer, e, techOf u, "eeg_data", now⟩]
  | none => []

/-- The `kwk_data` request, present only for a non-null `KwkMastrNummer`
(lines 280-289). -/
def kwkReqs (now : Nat) (u : BasicUnit) : List AdditionalDataRequested :=
  match u.KwkMastrNummer with
  | some k => [⟨u.EinheitMastrNummer, k, techOf u, "kwk_data", now⟩]
  | none => []

/-- The `permit_data` request, present only for a non-null `GenMastrNummer`
(lines 292-301). -/
def permitReqs (now : Nat) (u : BasicUnit) : List AdditionalDataRequested :=
  match u.GenMastrNummer with
  | some g => [⟨u.EinheitMastrNummer, g, techOf u, "permit_data", now⟩]
  | none => []

/-- The per-unit delete of stale obligations (lines 304-308): drop every
request row for the unit's id and technology whose `request_date` is older
than the current clock. -/
def deleteStaleRequests (now : Nat) (reqs : List AdditionalDataRequested)
    (u : BasicUnit) : List AdditionalDataRequested :=
  reqs.filter (fun r =>
    !(r.EinheitMastrNummer == u.EinheitMastrNummer &&
      r.technology == techOf u &&
      r.request_date < now))

/-- The `insert` partition of a chunk (lines 243-245): deduplicated units
whose id is not yet stored. -/
def insOf (s : MirrorState) (chunk : List BasicUnit) : List BasicUnit :=
  (dedupChunk chunk).filter (fun u => !(isCommon s.basic_units u))

/-- The `updated` partition of a chunk (lines 236-242): deduplicated units
whose id is stored with a strictly older timestamp. -/
def updOf (s : MirrorState) (chunk : List BasicUnit) : List BasicUnit :=
  (dedupChunk chunk).filter
    (fun u => isCommon s.basic_units u && hasOlder s.basic_units u)

/-- Processing of one chunk inside `backfill_basic` (lines 214-319): dedup
the chunk (last occurrence wins), partition into fresh inserts and
strictly-newer updates (strictly-not-newer incoming rows are dropped), merge
the updates and bulk-insert the inserts, then delete stale obligation rows
for every inserted-or-updated unit and bulk-insert the fresh obligations
(all `unit_data` rows first, then `eeg_data`, `kwk_data`, `permit_data`,
mirroring the four `bulk_insert_mappings` calls of lines 314-317).  `now`
models the wall clock: all stored obligation rows were created at earlier
instants. -/
def backfillChunk (now : Nat) (s : MirrorState) (chunk : List BasicUnit) :
    MirrorState :=
  let ins := insOf s chunk
  let upd := updOf s chunk
  let iu := ins ++ upd
  { basic_units := (upd.foldl mergeUnit s.basic_units) ++ ins
  , requests :=
      (iu.foldl (deleteStaleRequests now) s.requests)
        ++ iu.map (extendedReq now)
        ++ (iu.map (eegReqs now)).flatten
        ++ (iu.map (kwkReqs now)).flatten
        ++ (iu.map (permitReqs now)).flatten }

/-- A whole `backfill_basic` run over the chunks delivered by
`basic_unit_data`: chunks are processed in order and the clock advances at
every chunk commit. -/
def backfillRun (s : MirrorState) (chunks : List (List BasicUnit)) (now : Nat) :
    MirrorState :=
  (chunks.foldl (fun (p : MirrorState × Nat) c => (backfillChunk p.2 p.1 c, p.2 + 1))
    (s, now)).1

/-- Primary-key lookup in the `basic_units` table. -/
def findBasic (s : MirrorState) (i : String) : Option BasicUnit :=
  s.basic_units.find? (fun r => r.EinheitMastrNummer == i)

/-- Effective limit used by `backfill_basic` (lines 174-175): an unset limit
is replaced by the large finite bound `10 ** 8`. -/
def backfillEffectiveLimit (limit : Option Nat) : Nat :=
  match limit with
  | none => 10 ^ 8
  | some l => l

/-- The date argument of `backfill_basic`: `None`, the string `"latest"`, or
an explicit timestamp. -/
inductive DateParam
  | dnone
  | latest
  | explicitDate (d : Nat)
deriving DecidableEq, Repr

/-- Translation of a non-latest date argument to the `date_from` value handed
to the downloader. -/
def dateFromOf : DateParam → Option Nat
  | .dnone => none
  | .latest => none
  | .explicitDate d => some d

/-- Maximum of a list of naturals as produced by the descending
`order_by ... first()` / `func.max` queries; `none` on an empty table slice. -/
def natMax? (l : List Nat) : Option Nat :=
  l.foldl (fun acc d => some (acc.elim d (fun m => max m d))) none

/-- The newest `DatumLetzeAktualisierung` among stored basic units of one
`Einheittyp` (the query of lines 182-184 and the per-group maximum of the
`func.max` subquery of lines 188-190). -/
def newestDate (storage : List BasicUnit) (typ : String) : Option Nat :=
  natMax? ((storage.filter (fun u => u.Einheittyp == typ)).map
    (·.DatumLetzeAktualisierung))

/-- The distinct `Einheittyp` values present in storage (the `group_by` of
the subquery of lines 188-190; relational group-by order is unspecified, the
model fixes one concrete enumeration). -/
def distinctTypes (storage : List BasicUnit) : List String :=
  (storage.map (·.Einheittyp)).dedup

/-- Technology name of an `Einheittyp` via `unit_type_map` (a missing key
raises `KeyError` in Python; the model totalises with an empty string). -/
def mappedTech (typ : String) : String :=
  (unit_type_map.lookup typ).getD ""

/-- Watermark resolution of `backfill_basic`, lines 163-203: the list of
`(technology, date_from)` pairs the per-technology fetch loop of line 206
iterates over (`zip(technology_list, dates)`).  With `date = "latest"` and no
technology given, the grouped subquery produces one pair per distinct
`Einheittyp` actually present in storage, carrying that group's maximum
timestamp; with technologies given, each technology gets its own newest
stored date, `none` when it has no stored rows.  For non-latest dates every
requested technology is paired with the same date. -/
def resolveBackfillTargets (storage : List BasicUnit)
    (technology : Option (List String)) (date : DateParam) :
    List (Option String × Option Nat) :=
  match date, technology with
  | .latest, none =>
      (distinctTypes storage).map
        (fun ty => (some (mappedTech ty), newestDate storage ty))
  | .latest, some techs =>
      techs.map (fun t =>
        (some t, newestDate storage ((reversed_unit_type_map.lookup t).getD "")))
  | d, none => [(none, dateFromOf d)]
  | d, some techs => techs.map (fun t => (some t, dateFromOf d))

/-- One row of a detail-data table (the ORM class selected through
`orm_map[technology][data_type]`), keyed by its primary key. -/
structure DetailRow where
  key : String
  payload : Nat
deriving DecidableEq, Repr

/-- State touched by `retrieve_additional_data`: pending obligations
(`additional_data_requested`), the detail tables (flattened into one keyed
list), and the append-only `missed_additional_data` log. -/
structure DrainState where
  requests : List AdditionalDataRequested
  details : List DetailRow
  missed : List String
deriving DecidableEq, Repr

/-- The chunk selection of lines 340-342: the first `chunksize` obligation
rows matching the requested `data_type` and `technology`. -/
def selectChunk (s : DrainState) (technology data_type : String)
    (chunksize : Nat) : List AdditionalDataRequested :=
  (s.requests.filter (fun o =>
    o.data_type == data_type && o.technology == technology)).take chunksize

/-- `session.merge(unit)` on a detail table (line 362): overwrite the row
with the same key, or append a fresh row. -/
def mergeDetail (db : List DetailRow) (r : DetailRow) : List DetailRow :=
  if db.any (fun x => x.key == r.key) then
    db.map (fun x => if x.key == r.key then r else x)
  else
    db ++ [r]

/-- The body of one drain iteration after the remote call (lines 350-380):
merge every fetched detail row, append every missed id to
`missed_additional_data`, and delete exactly those selected obligation rows
whose `additional_data_id` is not among the missed ids (lines 374-376). -/
def applyDrainIteration (s : DrainState) (chunk : List AdditionalDataRequested)
    (unit_data : List DetailRow) (missed_units : List String) : DrainState :=
  { requests := s.requests.filter (fun o =>
      !(chunk.contains o && !(missed_units.contains o.additional_data_id)))
  , details := unit_data.foldl mergeDetail s.details
  , missed := s.missed ++ missed_units }

/-- The `while units_queried < limit` loop of lines 337-387.  `fetch` models
`MaStRDownload._additional_data`: from the selected ids it returns the
fetched detail rows and the missed ids.  `uq` is `units_queried`; the second
component of the result is its final value (the running total of consumed
obligations, increased by `len(ids)` at line 383).  The loop breaks when the
selection is empty or when no fetched unit was merged
(`number_units_merged == 0`, line 385), in the latter case after the
iteration's bookkeeping.  The recursion is driven by fuel; since every
continuing iteration selects at least one id, `units_queried` grows by at
least one per iteration, so any fuel of at least `limit - uq` makes the fuel
guard unreachable (`drainFuel_fuel_stable` below) and the entry point
`retrieve_additional_data` passes `limit`. -/
def drainFuel (fetch : List String → List DetailRow × List String)
    (technology data_type : String) (chunksize limit : Nat) :
    Nat → Nat → DrainState → DrainState × Nat
  | 0, uq, s => (s, uq)
  | fuel + 1, uq, s =>
    if uq < limit then
      let chunk := selectChunk s technology data_type chunksize
      if chunk.isEmpty then
        (s, uq)
      else
        let ids := chunk.map (·.additional_data_id)
        let fm := fetch ids
        let s' := applyDrainIteration s chunk fm.1 fm.2
        if fm.1.isEmpty then
          (s', uq + ids.length)
        else
          drainFuel fetch technology data_type chunksize limit fuel
            (uq + ids.length) s'
    else
      (s, uq)

/-- Python exception surfaced by the model. -/
inductive PyError
  | typeError
deriving DecidableEq, Repr

/-- The chunksize clamp of lines 333-335: `if limit:` is false for `None`
and for `0` (integer truthiness), otherwise `chunksize` is lowered to
`limit` when it exceeds it. -/
def clampChunksize (limit : Option Nat) (chunksize : Nat) : Nat :=
  match limit with
  | some l => if l ≠ 0 ∧ chunksize > l then l else chunksize
  | none => chunksize

/-- `MaStRReflected.retrieve_additional_data` (lines 323-387).  With
`limit = None` the first evaluation of the loop guard
`units_queried < limit` compares `0 < None` and raises `TypeError` before
any obligation has been selected or consumed; with a numeric limit the drain
loop runs with `units_queried` starting at zero. -/
def retrieve_additional_data
    (fetch : List String → List DetailRow × List String)
    (technology data_type : String) (limit : Option Nat) (chunksize : Nat)
    (s : DrainState) : Except PyError (DrainState × Nat) :=
  let cs := clampChunksize limit chunksize
  match limit with
  | none => .error .typeError
  | some l => .ok (drainFuel fetch technology data_type cs l l 0 s)

/-- Final `units_queried` total of a drain run (zero when the run raised). -/
def consumedOf : Except PyError (DrainState × Nat) → Nat
  | .ok p => p.2
  | .error _ => 0

/-- Final state of a drain run (empty state when the run raised). -/
def drainResultState : Except PyError (DrainState × Nat) → DrainState
  | .ok p => p.1
  | .error _ => ⟨[], [], []⟩

/-- A relational table as seen by the bulk loader: its column names and its
rows (rows are kept opaque as lists of cell values). -/
structure SqlTable where
  cols : List String
  rows : List (List String)
deriving DecidableEq, Repr

/-- A parsed file as a pandas DataFrame: column names and rows of cell
values. -/
structure DataFrame where
  cols : List String
  rows : List (List String)
deriving DecidableEq, Repr

/-- Outcome of one `df.to_sql(...)` attempt (line 142):  success, an
`OperationalError` naming a column of the DataFrame the table lacks, or a
`DataError` naming a cell value that violates a column constraint. -/
inductive WriteResult
  | success (t : SqlTable)
  | opErr (missingColumn : String)
  | dataErr (value : String)
deriving DecidableEq, Repr

/-- First DataFrame column absent from the target table (the cause extracted
from the `OperationalError` message at line 176). -/
def findMissingColumn (t : SqlTable) (df : DataFrame) : Option String :=
  df.cols.find? (fun c => !(t.cols.contains c))

/-- First cell value the store rejects (the cause extracted from the
`DataError` message at line 190); `bad` models the column constraints of the
store. -/
def findBadValue (bad : String → Bool) (df : DataFrame) : Option String :=
  df.rows.flatten.find? bad

/-- `df.to_sql(sql_tablename, con=engine, index=False, if_exists="append")`
(line 142) against an in-memory store: the write fails with
`OperationalError` when the DataFrame names a column the table lacks, fails
with `DataError` when a cell value violates a constraint (missing columns
are diagnosed first; the store reports one cause per failed statement), and
otherwise appends all rows. -/
def to_sql (bad : String → Bool) (t : SqlTable) (df : DataFrame) : WriteResult :=
  match findMissingColumn t df with
  | some c => .opErr c
  | none =>
    match findBadValue bad df with
    | some v => .dataErr v
    | none => .success { t with rows := t.rows ++ df.rows }

/-- `add_missing_column_to_table` (lines 165-186): execute
`ALTER TABLE ... ADD "col" text NULL`, i.e. append a nullable text column to
the table. -/
def add_missing_column_to_table (t : SqlTable) (missing_column : String) :
    SqlTable :=
  { t with cols := t.cols ++ [missing_column] }

/-- The value `df.replace(delete_entry, np.nan)` computed inside
`delete_wrong_xml_entry` (line 192): every occurrence of the offending value
anywhere in the frame replaced by NaN.  This is the frame the function
intends to hand back. -/
def dfReplace (df : DataFrame) (delete_entry : String) : DataFrame :=
  { df with rows := df.rows.map (List.map (fun x =>
      if x == delete_entry then "NaN" else x)) }

/-- `delete_wrong_xml_entry` (lines 189-192) as its caller observes it: the
assignment `df = df.replace(delete_entry, np.nan)` rebinds the function's
local name `df` to a fresh frame and returns nothing, so the caller's
DataFrame is unchanged — the call is a no-op on the batch. -/
def delete_wrong_xml_entry (delete_entry : String) (df : DataFrame) :
    DataFrame :=
  let _local_df := dfReplace df delete_entry
  df

/-- The DataFrame columns the target table currently lacks. -/
def missingColumns (t : SqlTable) (df : DataFrame) : List String :=
  df.cols.filter (fun c => !(t.cols.contains c))

/-- The `while continueloop` retry loop of lines 139-148 (for a file other
than `Einheitentypen.xml`): attempt the write; on `OperationalError` add the
reported missing column and resubmit the same write; on `DataError` call
`delete_wrong_xml_entry` (whose caller-visible effect is nil) and resubmit.
The loop is modelled with fuel (`none` meaning the loop is still running
when the fuel ends); the second component records the `ALTER TABLE`
statements executed, i.e. the columns added. -/
def writeLoop (bad : String → Bool) :
    Nat → SqlTable → DataFrame → Option SqlTable × List String
  | 0, _, _ => (none, [])
  | fuel + 1, t, df =>
    match to_sql bad t df with
    | .success t' => (some t', [])
    | .opErr c =>
      let r := writeLoop bad fuel (add_missing_column_to_table t c) df
      (r.1, c :: r.2)
    | .dataErr v => writeLoop bad fuel t (delete_wrong_xml_entry v df)

/-- The database of the bulk loader: tables by name. -/
abbrev BulkDb := List (String × SqlTable)

/-- Store a table under a name, overwriting an existing binding. -/
def dbSet (db : BulkDb) (name : String) (t : SqlTable) : BulkDb :=
  if (db.lookup name).isSome then
    db.map (fun p => if p.1 == name then (name, t) else p)
  else
    db ++ [(name, t)]

/-- `df.rename(columns=...)` (line 117). -/
def dfRename (df : DataFrame) (renames : List (String × String)) : DataFrame :=
  { df with cols := df.cols.map (fun c => (renames.lookup c).getD c) }

/-- `add_table_to_sqlite_database` (lines 100-156) on an already-parsed
DataFrame: apply the configured column renames, then run the write-retry
loop against the target table — except for `Einheitentypen.xml`, which the
`while` condition excludes, leaving the store untouched.  A table the store
does not know yet is created by the append with the DataFrame's columns. -/
def add_table_to_sqlite_database (bad : String → Bool) (fuel : Nat)
    (file_name sql_tablename : String)
    (renames : Option (List (String × String))) (db : BulkDb)
    (df : DataFrame) : Option BulkDb :=
  let df' := match renames with
    | some m => dfRename df m
    | none => df
  if file_name == "Einheitentypen.xml" then
    some db
  else
    let t := (db.lookup sql_tablename).getD ⟨df'.cols, []⟩
    match (writeLoop bad fuel t df').1 with
    | some t' => some (dbSet db sql_tablename t')
    | none => none

/-- Modelled from the spec: the Schema Registry entry of one external
record-type name (`tablename_mapping` lives in `open_mastr/soap_api/orm.py`,
which is not among the provided sources).  Per the spec it maps an external
record-type name to a target table name, optional target column renames, and
an "ignore" marker (`className = none`) for auxiliary record types that
carry no storable data. -/
structure TableMapping where
  className : Option String
  tableName : String
  replaceColumnNames : Option (List (String × String))
deriving DecidableEq, Repr

/-- One entry of the zipped archive, already parsed: its file name and its
tabular content. -/
structure ArchiveEntry where
  name : String
  df : DataFrame
deriving DecidableEq, Repr

/-- Python `str.split(sep)` for a one-character separator, on the character
list of the string: always at least one part, empty parts kept. -/
def splitOnChar (sep : Char) : List Char → List (List Char)
  | [] => [[]]
  | c :: cs =>
    match splitOnChar sep cs with
    | [] => [[]]
    | h :: t => if c == sep then [] :: h :: t else (c :: h) :: t

/-- The table-name stem of an archive entry
(`file_name.split("_")[0].split(".")[0].lower()`, line 64). -/
def xml_tablename_of (file_name : String) : String :=
  ⟨((splitOnChar '.' ((splitOnChar '_' file_name.toList).headD [])).headD []).map
    Char.toLower⟩

/-- The first-file test of lines 79-82:
`file_name.split(".")[0].split("_")[-1] == "1"` or the stem has no sequence
number at all. -/
def is_first_file (file_name : String) : Bool :=
  let parts := splitOnChar '_' ((splitOnChar '.' file_name.toList).headD [])
  parts.getLast? == some ['1'] || parts.length == 1

/-- An SQLAlchemy `Delete` statement object. -/
structure DeleteStatement where
  tableName : String
deriving DecidableEq, Repr

/-- `sqlalchemy.delete(table(sql_tablename))` (line 83): this merely
constructs a `Delete` statement object; nothing in the source ever executes
it against the connection. -/
def sqlalchemy_delete (sql_tablename : String) : DeleteStatement :=
  ⟨sql_tablename⟩

/-- Processing of one archive entry inside `convert_mastr_xml_to_sqlite`
(lines 62-97): derive the stem, consult the Schema Registry and the
`include_tables` selection, and for a storable selected entry run the table
write.  For a first file (sequence number 1 or none) the source constructs a
`Delete` statement for the target table but never executes it (line 83), so
the store is not cleared before the write. -/
def convertEntry (registry : List (String × TableMapping))
    (bad : String → Bool) (fuel : Nat) (include_tables : List String)
    (db : BulkDb) (e : ArchiveEntry) : Option BulkDb :=
  let xml_tablename := xml_tablename_of e.name
  let mapping := (registry.lookup xml_tablename).getD ⟨none, "", none⟩
  let boolean_write_table_to_sql_database := mapping.className.isSome
  let include_count := include_tables.count xml_tablename
  if include_count == 1 && boolean_write_table_to_sql_database then
    let sql_tablename := mapping.tableName
    let db' :=
      if is_first_file e.name then
        let _unexecuted := sqlalchemy_delete sql_tablename
        db
      else
        db
    add_table_to_sqlite_database bad fuel e.name sql_tablename
      mapping.replaceColumnNames db' e.df
  else
    some db

/-- `convert_mastr_xml_to_sqlite` (lines 33-97): process the archive entries
in order, threading the store; a write whose retry loop does not finish
aborts the load. -/
def convert_mastr_xml_to_sqlite (registry : List (String × TableMapping))
    (bad : String → Bool) (fuel : Nat) (include_tables : List String)
    (db : BulkDb) (entries : List ArchiveEntry) : Option BulkDb :=
  entries.foldl
    (fun acc e => acc.bind (fun d => convertEntry registry bad fuel include_tables d e))
    (some db)

/-- Row count of a named table in a bulk-load result (zero when the load
aborted or the table is absent). -/
def tableRowCount (r : Option BulkDb) (name : String) : Nat :=
  match r with
  | some db => ((db.lookup name).getD ⟨[], []⟩).rows.length
  | none => 0

/-- Rows of a named table in a bulk-load result (empty when the load aborted
or the table is absent). -/
def tableRows (r : Option BulkDb) (name : String) : List (List String) :=
  match r with
  | some db => ((db.lookup name).getD ⟨[], []⟩).rows
  | none => []

/-- Application of `upd.foldl mergeUnit` to a single stored row: the row is
replaced, in order, by every update that carries its primary key. -/
def applyUpdates (us : List BasicUnit) (r : BasicUnit) : BasicUnit :=
  us.foldl (fun a v => if a.EinheitMastrNummer == v.EinheitMastrNummer then v else a) r

/-- Specification predicate: the `basic_units` table holds the unit's id,
and every stored row with that id is at least as new as `u`. -/
def StoredGe (db : List BasicUnit) (u : BasicUnit) : Prop :=
  (∃ r ∈ db, r.EinheitMastrNummer = u.EinheitMastrNummer) ∧
  ∀ r ∈ db, r.EinheitMastrNummer = u.EinheitMastrNummer →
    u.DatumLetzeAktualisierung ≤ r.DatumLetzeAktualisierung

/- Concrete fixtures used by witnesses and counterexamples. -/

/-- A wind unit with an EEG reference, timestamp 3. -/
def cxU1a : BasicUnit := ⟨"SEE1", "Windeinheit", 3, some "EEG1", none, none⟩

/-- The same unit id with timestamp 5 and a permit reference. -/
def cxU1b : BasicUnit := ⟨"SEE1", "Windeinheit", 5, none, none, some "GEN1"⟩

/-- A chunk repeating the unit id SEE1 with different payloads. -/
def cxChunk2 : List BasicUnit :=
  [cxU1a, ⟨"SEE2", "Solareinheit", 4, none, none, none⟩, cxU1b]

/-- One pending eeg obligation whose detail fetch the remote source will
declare missing. -/
def cxObl3 : AdditionalDataRequested := ⟨"SEE1", "X", "wind", "eeg_data", 0⟩

/-- A second pending eeg obligation, used by the amended-claim witness. -/
def cxObl3b : AdditionalDataRequested := ⟨"SEE2", "Y", "wind", "eeg_data", 0⟩

/-- A remote client that resolves none of the requested ids. -/
def cxFetchAllMissed : List String → List DetailRow × List String :=
  fun ids => ([], ids)

/-- A remote client that resolves every requested id. -/
def cxFetchAll : List String → List DetailRow × List String :=
  fun ids => (ids.map (fun i => ⟨i, 0⟩), [])

/-- Drain state holding exactly the obligation `cxObl3`. -/
def cxDrain3 : DrainState := ⟨[cxObl3], [], []⟩

/-- Drain state holding fourteen matching obligations. -/
def cxDrain14 : DrainState :=
  ⟨(List.range 14).map (fun n => ⟨toString n, toString n, "wind", "unit_data", 0⟩),
   [], []⟩

/-- One stored wind unit with timestamp 5. -/
def cxWind : BasicUnit := ⟨"W1", "Windeinheit", 5, none, none, none⟩

/-- A first obligation with a short literal id, for the drain-step witness. -/
def cxObl7a : AdditionalDataRequested := ⟨"U1", "a", "wind", "unit_data", 0⟩

/-- A second obligation with a short literal id. -/
def cxObl7b : AdditionalDataRequested := ⟨"U2", "b", "wind", "unit_data", 0⟩

/-- Drain state holding the two obligations above. -/
def cxDrain2 : DrainState := ⟨[cxObl7a, cxObl7b], [], []⟩

/-- A one-category Schema Registry for the bulk-loader fixtures. -/
def cxRegistry : List (String × TableMapping) :=
  [("solar", ⟨some "SolarOrm", "solar", none⟩)]

/-- An archive DataFrame of `n` identical solar rows. -/
def cxSolarDf (n : Nat) : DataFrame := ⟨["A"], List.replicate n ["v"]⟩

/-- A store whose solar table already holds five rows from an earlier load. -/
def cxDbPre : BulkDb := [("solar", ⟨["A"], List.replicate 5 ["old"]⟩)]

/-- A store whose solar table is fresh (empty). -/
def cxDbFresh : BulkDb := [("solar", ⟨["A"], []⟩)]

/-- The two-entry solar archive of the spec scenario. -/
def cxEntries : List ArchiveEntry :=
  [⟨"Solar_1.xml", cxSolarDf 20⟩, ⟨"Solar_2.xml", cxSolarDf 15⟩]

/-- A store predicate rejecting no value. -/
def noBad : String → Bool := fun _ => false

/-- A target table with a single column. -/
def cxTable5 : SqlTable := ⟨["a"], []⟩

/-- A DataFrame naming one column the table lacks. -/
def cxDf5 : DataFrame := ⟨["a", "b"], [["1", "2"]]⟩

/-- A store constraint rejecting the cell value "bad". -/
def cxBad6 : String → Bool := fun v => v == "bad"

/-- A DataFrame containing the rejected value. -/
def cxDf6 : DataFrame := ⟨["a"], [["bad"]]⟩

/-! Helper lemmas. -/

theorem getLast?_cons_of_ne_nil {α : Type} (a : α) {l : List α} (h : l ≠ []) :
    (a :: l).getLast? = l.getLast? := by
  cases l with
  | nil => exact absurd rfl h
  | cons b bs => simp [List.getLast?_cons_cons]

theorem dedupChunk_filter_eq (c : List BasicUnit) (i : String) :
    (dedupChunk c).filter (fun u => u.EinheitMastrNummer == i) =
      ((c.filter (fun u => u.EinheitMastrNummer == i)).getLast?).toList := by
  induction c with
  | nil => rfl
  | cons u rest ih =>
    by_cases hdup : rest.any (fun v => v.EinheitMastrNummer == u.EinheitMastrNummer)
    · rw [dedupChunk, if_pos hdup]
      by_cases hui : u.EinheitMastrNummer = i
      · have hne : rest.filter (fun v => v.EinheitMastrNummer == i) ≠ [] := by
          rw [List.any_eq_true] at hdup
          obtain ⟨v, hv, hvid⟩ := hdup
          have : v ∈ rest.filter (fun v => v.EinheitMastrNummer == i) := by
            rw [List.mem_filter]
            refine ⟨hv, ?_⟩
            simp only [beq_iff_eq] at hvid ⊢
            rw [hvid, hui]
          intro hnil
          rw [hnil] at this
          exact absurd this (List.not_mem_nil v)
        rw [ih, List.filter_cons_of_pos (by simp [hui]),
          getLast?_cons_of_ne_nil _ hne]
      · rw [ih, List.filter_cons_of_neg (by simp [hui])]
    · rw [dedupChunk, if_neg hdup]
      rw [Bool.not_eq_true, List.any_eq_false] at hdup
      by_cases hui : u.EinheitMastrNummer = i
      · have hrest : rest.filter (fun v => v.EinheitMastrNummer == i) = [] := by
          rw [List.filter_eq_nil_iff]
          intro v hv
          have := hdup v hv
          simp only [beq_iff_eq] at this ⊢
          rw [hui] at this
          exact this
        have hded : (dedupChunk rest).filter (fun v => v.EinheitMastrNummer == i) = [] := by
          rw [ih, hrest]
          rfl
        rw [List.filter_cons_of_pos (by simp [hui]), hded,
          List.filter_cons_of_pos (by simp [hui]), hrest]
        rfl
      · rw [List.filter_cons_of_neg (by simp [hui]), ih,
          List.filter_cons_of_neg (by simp [hui])]

/-- C2: within a chunk, deduplication by `EinheitMastrNummer` keeps for every
unit id occurring in the chunk exactly one record, and that record is the
last-occurring payload for the id in chunk order (lines 219-224). -/
theorem claim_C2_dedup_last_wins (c : List BasicUnit) (i : String)
    (h : c.filter (fun u => u.EinheitMastrNummer == i) ≠ []) :
    ∃ u, (dedupChunk c).filter (fun v => v.EinheitMastrNummer == i) = [u] ∧
      (c.filter (fun v => v.EinheitMastrNummer == i)).getLast? = some u := by
  obtain ⟨u, hu⟩ := Option.ne_none_iff_exists'.mp
    (mt List.getLast?_eq_none_iff.mp h)
  refine ⟨u, ?_, hu⟩
  rw [dedupChunk_filter_eq, hu]
  rfl

/-- C2 witness: the chunk `cxChunk2` carries id SEE1 twice with different
payloads; the survivor is the later payload `cxU1b`. -/
theorem claim_C2_dedup_last_wins_witness :
    (cxChunk2.filter (fun u => u.EinheitMastrNummer == "SEE1") ≠ []) ∧
    ∃ u, (dedupChunk cxChunk2).filter (fun v => v.EinheitMastrNummer == "SEE1") = [u] ∧
      (cxChunk2.filter (fun v => v.EinheitMastrNummer == "SEE1")).getLast? = some u :=
  ⟨by decide, claim_C2_dedup_last_wins cxChunk2 "SEE1" (by decide)⟩

/-- C10: calling `retrieve_additional_data` with `limit` unset fails with a
`TypeError` raised by the loop guard `units_queried < limit` before any
obligation is selected or consumed, whereas `backfill_basic` substitutes the
finite bound `10 ** 8` for an unset limit (lines 333-338 versus 174-175). -/
theorem claim_C10_limit_required :
    (∀ (fetch : List String → List DetailRow × List String)
      (technology data_type : String) (chunksize : Nat) (s : DrainState),
      retrieve_additional_data fetch technology data_type none chunksize s =
        .error .typeError) ∧
    backfillEffectiveLimit none = 10 ^ 8 :=
  ⟨fun _ _ _ _ _ => rfl, rfl⟩

/-- C3 counterexample: draining a single obligation whose id the remote
source reports missing appends the id to `missed_additional_data` but keeps
the `FetchObligation` row — lines 374-376 delete a selected obligation only
when its id is NOT among the missed ids — refuting both "for every missing
id the corresponding FetchObligation row is deleted" and "whenever a unit_id
is present in MissedFetch, no FetchObligation for it remains". -/
theorem claim_C3_counterexample :
    "X" ∈ (drainResultState (retrieve_additional_data cxFetchAllMissed
      "wind" "eeg_data" (some 10) 1000 cxDrain3)).missed ∧
    cxObl3 ∈ (drainResultState (retrieve_additional_data cxFetchAllMissed
      "wind" "eeg_data" (some 10) 1000 cxDrain3)).requests := by
  constructor <;> decide

/-- C3 amended: in one drain iteration, every selected obligation whose id
is not among the missed ids is deleted (after the fetched rows are merged),
and every missed id is appended to MissedFetch while its obligation row is
retained — a missed fetch keeps its FetchObligation pending. -/
theorem claim_C3_amended (s : DrainState) (chunk : List AdditionalDataRequested)
    (unit_data : List DetailRow) (missed_units : List String)
    (o : AdditionalDataRequested) :
    (o ∈ chunk → ¬ missed_units.contains o.additional_data_id →
      o ∉ (applyDrainIteration s chunk unit_data missed_units).requests) ∧
    (o ∈ s.requests → missed_units.contains o.additional_data_id →
      o ∈ (applyDrainIteration s chunk unit_data missed_units).requests) ∧
    (∀ x ∈ missed_units,
      x ∈ (applyDrainIteration s chunk unit_data missed_units).missed) := by
  refine ⟨fun hchunk hnm hmem => ?_, fun hmem hmissed => ?_, fun x hx => ?_⟩
  · simp only [applyDrainIteration, List.mem_filter] at hmem
    have hpred := hmem.2
    rw [Bool.not_eq_true', Bool.and_eq_false_iff] at hpred
    rcases hpred with h1 | h2
    · have hc : chunk.contains o = true := List.elem_eq_true_of_mem hchunk
      rw [hc] at h1
      exact Bool.noConfusion h1
    · rw [Bool.not_eq_false'] at h2
      exact hnm h2
  · simp only [applyDrainIteration, List.mem_filter]
    refine ⟨hmem, ?_⟩
    have hm : o.additional_data_id ∈ missed_units := List.elem_iff.mp hmissed
    simp [hm]
  · simp only [applyDrainIteration, List.mem_append]
    exact Or.inr hx

/-- C3 amended witness: concrete instantiation for the obligation `cxObl3b`
selected in a chunk and not missed (deleted), and `cxObl3` whose id "X" is
missed (retained, with "X" logged). -/
theorem claim_C3_amended_witness :
    (cxObl3b ∉ (applyDrainIteration ⟨[cxObl3, cxObl3b], [], []⟩
      [cxObl3, cxObl3b] [⟨"Y", 0⟩] ["X"]).requests) ∧
    (cxObl3 ∈ (applyDrainIteration ⟨[cxObl3, cxObl3b], [], []⟩
      [cxObl3, cxObl3b] [⟨"Y", 0⟩] ["X"]).requests) ∧
    ("X" ∈ (applyDrainIteration ⟨[cxObl3, cxObl3b], [], []⟩
      [cxObl3, cxObl3b] [⟨"Y", 0⟩] ["X"]).missed) :=
  ⟨(claim_C3_amended ⟨[cxObl3, cxObl3b], [], []⟩ [cxObl3, cxObl3b]
      [⟨"Y", 0⟩] ["X"] cxObl3b).1 (by decide) (by decide),
   (claim_C3_amended ⟨[cxObl3, cxObl3b], [], []⟩ [cxObl3, cxObl3b]
      [⟨"Y", 0⟩] ["X"] cxObl3).2.1 (by decide) (by decide),
   (claim_C3_amended ⟨[cxObl3, cxObl3b], [], []⟩ [cxObl3, cxObl3b]
      [⟨"Y", 0⟩] ["X"] cxObl3).2.2 "X" (by decide)⟩

/-- C7 counterexample: with `limit = 10`, `chunksize = 7`, fourteen pending
obligations and a remote client resolving every id, the drain consumes all
fourteen obligations — the limit does not bound the total consumed, because
the guard `units_queried < limit` is checked only before an iteration
(lines 337-338, 383). -/
theorem claim_C7_counterexample :
    consumedOf (retrieve_additional_data cxFetchAll "wind" "unit_data"
      (some 10) 7 cxDrain14) = 14 ∧
    10 < consumedOf (retrieve_additional_data cxFetchAll "wind" "unit_data"
      (some 10) 7 cxDrain14) := by
  constructor <;> decide

theorem selectChunk_length_le (s : DrainState) (technology data_type : String)
    (chunksize : Nat) :
    (selectChunk s technology data_type chunksize).length ≤ chunksize := by
  simp only [selectChunk, List.length_take]
  exact Nat.min_le_left _ _

theorem drainFuel_exit_guard (fetch : List String → List DetailRow × List String)
    (technology data_type : String) (cs lim fuel uq : Nat) (s : DrainState)
    (huq : ¬ uq < lim) :
    drainFuel fetch technology data_type cs lim (fuel + 1) uq s = (s, uq) := by
  simp only [drainFuel, if_neg huq]

theorem drainFuel_exit_empty (fetch : List String → List DetailRow × List String)
    (technology data_type : String) (cs lim fuel uq : Nat) (s : DrainState)
    (huq : uq < lim) (hsel : selectChunk s technology data_type cs = []) :
    drainFuel fetch technology data_type cs lim (fuel + 1) uq s = (s, uq) := by
  simp only [drainFuel, if_pos huq, hsel, List.isEmpty_nil, if_pos]

theorem drainFuel_break_zero (fetch : List String → List DetailRow × List String)
    (technology data_type : String) (cs lim fuel uq : Nat) (s : DrainState)
    (ch : List AdditionalDataRequested) (m : List String)
    (huq : uq < lim) (hsel : selectChunk s technology data_type cs = ch)
    (hne : ch ≠ [])
    (hfetch : fetch (ch.map (·.additional_data_id)) = ([], m)) :
    drainFuel fetch technology data_type cs lim (fuel + 1) uq s =
      (applyDrainIteration s ch [] m, uq + ch.length) := by
  have hie : ch.isEmpty = false := by
    cases ch with
    | nil => exact absurd rfl hne
    | cons a t => rfl
  simp [drainFuel, huq, hsel, hie, hfetch]

theorem drainFuel_step (fetch : List String → List DetailRow × List String)
    (technology data_type : String) (cs lim fuel uq : Nat) (s : DrainState)
    (ch : List AdditionalDataRequested) (ud : List DetailRow) (m : List String)
    (huq : uq < lim) (hsel : selectChunk s technology data_type cs = ch)
    (hne : ch ≠ [])
    (hfetch : fetch (ch.map (·.additional_data_id)) = (ud, m)) (hud : ud ≠ []) :
    drainFuel fetch technology data_type cs lim (fuel + 1) uq s =
      drainFuel fetch technology data_type cs lim fuel (uq + ch.length)
        (applyDrainIteration s ch ud m) := by
  have hie : ch.isEmpty = false := by
    cases ch with
    | nil => exact absurd rfl hne
    | cons a t => rfl
  have hue : ud.isEmpty = false := by
    cases ud with
    | nil => exact absurd rfl hud
    | cons a t => rfl
  simp [drainFuel, huq, hsel, hie, hue, hfetch]

theorem drainFuel_consumed_le (fetch : List String → List DetailRow × List String)
    (technology data_type : String) (cs lim : Nat) :
    ∀ (fuel uq : Nat) (s : DrainState),
      (drainFuel fetch technology data_type cs lim fuel uq s).2 ≤
        max uq (lim + cs - 1) := by
  intro fuel
  induction fuel with
  | zero =>
    intro uq s
    simp only [drainFuel]
    omega
  | succ n ih =>
    intro uq s
    by_cases huq : uq < lim
    · cases hch : selectChunk s technology data_type cs with
      | nil =>
        rw [drainFuel_exit_empty fetch technology data_type cs lim n uq s huq hch]
        omega
      | cons a ch' =>
        have hlen : (a :: ch').length ≤ cs := by
          rw [← hch]
          exact selectChunk_length_le s technology data_type cs
        cases hfm : fetch ((a :: ch').map (·.additional_data_id)) with
        | mk ud m =>
          cases ud with
          | nil =>
            rw [drainFuel_break_zero fetch technology data_type cs lim n uq s
              (a :: ch') m huq hch (by simp) hfm]
            simp only
            omega
          | cons d ud' =>
            rw [drainFuel_step fetch technology data_type cs lim n uq s
              (a :: ch') (d :: ud') m huq hch (by simp) hfm (by simp)]
            have := ih (uq + (a :: ch').length)
              (applyDrainIteration s (a :: ch') (d :: ud') m)
            omega
    · rw [drainFuel_exit_guard fetch technology data_type cs lim n uq s huq]
      omega

theorem drainFuel_fuel_stable (fetch : List String → List DetailRow × List String)
    (technology data_type : String) (cs lim : Nat) :
    ∀ (fuel uq : Nat) (s : DrainState), lim ≤ uq + fuel →
      drainFuel fetch technology data_type cs lim (fuel + 1) uq s =
        drainFuel fetch technology data_type cs lim fuel uq s := by
  intro fuel
  induction fuel with
  | zero =>
    intro uq s hle
    rw [drainFuel_exit_guard fetch technology data_type cs lim 0 uq s (by omega)]
    rfl
  | succ n ih =>
    intro uq s hle
    by_cases huq : uq < lim
    · cases hch : selectChunk s technology data_type cs with
      | nil =>
        rw [drainFuel_exit_empty fetch technology data_type cs lim (n + 1) uq s huq hch,
          drainFuel_exit_empty fetch technology data_type cs lim n uq s huq hch]
      | cons a ch' =>
        cases hfm : fetch ((a :: ch').map (·.additional_data_id)) with
        | mk ud m =>
          cases ud with
          | nil =>
            rw [drainFuel_break_zero fetch technology data_type cs lim (n + 1) uq s
              (a :: ch') m huq hch (by simp) hfm,
              drainFuel_break_zero fetch technology data_type cs lim n uq s
              (a :: ch') m huq hch (by simp) hfm]
          | cons d ud' =>
            rw [drainFuel_step fetch technology data_type cs lim (n + 1) uq s
              (a :: ch') (d :: ud') m huq hch (by simp) hfm (by simp),
              drainFuel_step fetch technology data_type cs lim n uq s
              (a :: ch') (d :: ud') m huq hch (by simp) hfm (by simp)]
            apply ih
            simp only [List.length_cons]
            omega
    · rw [drainFuel_exit_guard fetch technology data_type cs lim (n + 1) uq s huq,
        drainFuel_exit_guard fetch technology data_type cs lim n uq s huq]

theorem retrieve_consumed_le (fetch : List String → List DetailRow × List String)
    (technology data_type : String) (l cs : Nat) (s : DrainState) (hl : 1 ≤ l) :
    consumedOf (retrieve_additional_data fetch technology data_type (some l) cs s) ≤
      2 * l - 1 := by
  have hcs : clampChunksize (some l) cs ≤ max cs l := by
    simp only [clampChunksize]
    split
    · omega
    · omega
  have hcs2 : clampChunksize (some l) cs ≤ l ∨ clampChunksize (some l) cs = cs := by
    simp only [clampChunksize]
    split
    · exact Or.inl (Nat.le_refl l)
    · exact Or.inr rfl
  have hcl : clampChunksize (some l) cs ≤ l := by
    rcases hcs2 with h | h
    · exact h
    · rw [h]
      simp only [clampChunksize] at h
      by_cases hgt : cs > l
      · exfalso
        rw [if_pos ⟨by omega, hgt⟩] at h
        omega
      · omega
  have hb := drainFuel_consumed_le fetch technology data_type
    (clampChunksize (some l) cs) l l 0 s
  simp only [retrieve_additional_data, consumedOf]
  omega

/-- C7 amended: each drain iteration that selects a nonempty set of
obligations increases the consumed total by exactly the number of selected
ids; the loop exits when an iteration selects no obligation or merges zero
fetched units (in the latter case after counting the selected ids); but the
`limit` parameter only gates entry into an iteration, so the total consumed
can overshoot `limit` by up to `chunksize - 1` — it is bounded by
`max uq (limit + chunksize - 1)`, hence (with the chunksize clamped to at
most the limit at lines 333-335) by `2 * limit - 1`, not by `limit`
itself. -/
theorem claim_C7_amended :
    (∀ (fetch : List String → List DetailRow × List String)
      (technology data_type : String) (cs lim fuel uq : Nat) (s : DrainState),
      uq < lim → selectChunk s technology data_type cs = [] →
      drainFuel fetch technology data_type cs lim (fuel + 1) uq s = (s, uq)) ∧
    (∀ (fetch : List String → List DetailRow × List String)
      (technology data_type : String) (cs lim fuel uq : Nat) (s : DrainState)
      (ch : List AdditionalDataRequested) (m : List String),
      uq < lim → selectChunk s technology data_type cs = ch → ch ≠ [] →
      fetch (ch.map (·.additional_data_id)) = ([], m) →
      drainFuel fetch technology data_type cs lim (fuel + 1) uq s =
        (applyDrainIteration s ch [] m, uq + ch.length)) ∧
    (∀ (fetch : List String → List DetailRow × List String)
      (technology data_type : String) (cs lim fuel uq : Nat) (s : DrainState)
      (ch : List AdditionalDataRequested) (ud : List DetailRow) (m : List String),
      uq < lim → selectChunk s technology data_type cs = ch → ch ≠ [] →
      fetch (ch.map (·.additional_data_id)) = (ud, m) → ud ≠ [] →
      drainFuel fetch technology data_type cs lim (fuel + 1) uq s =
        drainFuel fetch technology data_type cs lim fuel (uq + ch.length)
          (applyDrainIteration s ch ud m)) ∧
    (∀ (fetch : List String → List DetailRow × List String)
      (technology data_type : String) (cs lim fuel uq : Nat) (s : DrainState),
      (drainFuel fetch technology data_type cs lim fuel uq s).2 ≤
        max uq (lim + cs - 1)) ∧
    (∀ (fetch : List String → List DetailRow × List String)
      (technology data_type : String) (l cs : Nat) (s : DrainState), 1 ≤ l →
      consumedOf (retrieve_additional_data fetch technology data_type
        (some l) cs s) ≤ 2 * l - 1) :=
  ⟨fun fetch t d cs lim fuel uq s huq hsel =>
      drainFuel_exit_empty fetch t d cs lim fuel uq s huq hsel,
   fun fetch t d cs lim fuel uq s ch m huq hsel hne hfetch =>
      drainFuel_break_zero fetch t d cs lim fuel uq s ch m huq hsel hne hfetch,
   fun fetch t d cs lim fuel uq s ch ud m huq hsel hne hfetch hud =>
      drainFuel_step fetch t d cs lim fuel uq s ch ud m huq hsel hne hfetch hud,
   fun fetch t d cs lim fuel uq s =>
      drainFuel_consumed_le fetch t d cs lim fuel uq s,
   fun fetch t d l cs s hl => retrieve_consumed_le fetch t d l cs s hl⟩

/-- C7 amended witness: concrete instantiations — an empty selection exits;
the all-missed single-obligation state breaks after counting one id; the
fourteen-obligation state steps with seven ids consumed; the bound holds at
the counterexample instance, giving a total of at most nineteen for limit
ten. -/
theorem claim_C7_amended_witness :
    (drainFuel cxFetchAll "wind" "unit_data" 7 10 (3 + 1) 0 ⟨[], [], []⟩ =
        (⟨[], [], []⟩, 0)) ∧
    (drainFuel cxFetchAllMissed "wind" "eeg_data" 1000 10 (9 + 1) 0 cxDrain3 =
      (applyDrainIteration cxDrain3 [cxObl3] [] ["X"], 0 + [cxObl3].length)) ∧
    (drainFuel cxFetchAll "wind" "unit_data" 1 10 (9 + 1) 0 cxDrain2 =
      drainFuel cxFetchAll "wind" "unit_data" 1 10 9 (0 + [cxObl7a].length)
        (applyDrainIteration cxDrain2 [cxObl7a] [⟨"a", 0⟩] [])) ∧
    ((drainFuel cxFetchAll "wind" "unit_data" 7 10 10 0 cxDrain14).2 ≤
      max 0 (10 + 7 - 1)) ∧
    (consumedOf (retrieve_additional_data cxFetchAll "wind" "unit_data"
      (some 10) 7 cxDrain14) ≤ 2 * 10 - 1) :=
  ⟨claim_C7_amended.1 cxFetchAll "wind" "unit_data" 7 10 3 0 ⟨[], [], []⟩
      (by decide) (by decide),
   claim_C7_amended.2.1 cxFetchAllMissed "wind" "eeg_data" 1000 10 9 0 cxDrain3
      [cxObl3] ["X"] (by decide) (by decide) (by decide) (by decide),
   claim_C7_amended.2.2.1 cxFetchAll "wind" "unit_data" 1 10 9 0 cxDrain2
      [cxObl7a] [⟨"a", 0⟩] []
      (by decide) (by decide) (by decide) (by decide) (by decide),
   claim_C7_amended.2.2.2.1 cxFetchAll "wind" "unit_data" 7 10 10 0 cxDrain14,
   claim_C7_amended.2.2.2.2 cxFetchAll "wind" "unit_data" 10 7 cxDrain14
      (by decide)⟩

/-- C9 counterexample: with storage holding only a wind unit, invoking the
watermark resolution with `date = "latest"` and no technology specified
yields exactly one fetch target — wind with its stored maximum — and no
target at all for solar: a category with no stored records is skipped
entirely rather than resolved to an absent watermark with a full backfill
(lines 186-194). -/
theorem claim_C9_counterexample :
    resolveBackfillTargets [cxWind] none .latest = [(some "wind", some 5)] ∧
    (some "solar", (none : Option Nat)) ∉
      resolveBackfillTargets [cxWind] none .latest ∧
    some "solar" ∉ (resolveBackfillTargets [cxWind] none .latest).map Prod.fst := by
  refine ⟨by decide, by decide, by decide⟩

theorem applyUpdates_cons (v : BasicUnit) (vs : List BasicUnit) (r : BasicUnit) :
    applyUpdates (v :: vs) r =
      applyUpdates vs
        (if r.EinheitMastrNummer == v.EinheitMastrNummer then v else r) := rfl

theorem foldl_mergeUnit (db : List BasicUnit) (us : List BasicUnit) :
    us.foldl mergeUnit db = db.map (applyUpdates us) := by
  induction us generalizing db with
  | nil => exact (List.map_id'' (fun x => rfl) db).symm
  | cons v vs ih =>
    rw [List.foldl_cons, ih, mergeUnit, List.map_map]
    rfl

theorem applyUpdates_id (us : List BasicUnit) (r : BasicUnit) :
    (applyUpdates us r).EinheitMastrNummer = r.EinheitMastrNummer := by
  induction us generalizing r with
  | nil => rfl
  | cons v vs ih =>
    rw [applyUpdates_cons]
    by_cases h : (r.EinheitMastrNummer == v.EinheitMastrNummer) = true
    · rw [if_pos h, ih v]
      exact (beq_iff_eq.mp h).symm
    · rw [if_neg h, ih r]

theorem applyUpdates_no_match (us : List BasicUnit) (r : BasicUnit)
    (h : ∀ v ∈ us, v.EinheitMastrNummer ≠ r.EinheitMastrNummer) :
    applyUpdates us r = r := by
  induction us with
  | nil => rfl
  | cons v vs ih =>
    rw [applyUpdates_cons]
    have hne : (r.EinheitMastrNummer == v.EinheitMastrNummer) = false := by
      rw [beq_eq_false_iff_ne]
      exact fun he => h v (List.mem_cons_self v vs) he.symm
    rw [if_neg (by rw [hne]; exact Bool.false_ne_true)]
    exact ih (fun w hw => h w (List.mem_cons_of_mem v hw))

theorem applyUpdates_hit (us : List BasicUnit) (u r : BasicUnit)
    (hnd : (us.map (·.EinheitMastrNummer)).Nodup) (hu : u ∈ us)
    (hid : r.EinheitMastrNummer = u.EinheitMastrNummer) :
    applyUpdates us r = u := by
  induction us generalizing r with
  | nil => cases hu
  | cons v vs ih =>
    rw [List.map_cons, List.nodup_cons] at hnd
    rw [applyUpdates_cons]
    rcases List.mem_cons.mp hu with h1 | h1
    · subst h1
      rw [if_pos (by rw [beq_iff_eq]; exact hid)]
      apply applyUpdates_no_match
      intro w hw he
      exact hnd.1 (he ▸ List.mem_map_of_mem (·.EinheitMastrNummer) hw)
    · have hvne : v.EinheitMastrNummer ≠ u.EinheitMastrNummer := by
        intro he
        exact hnd.1 (he ▸ List.mem_map_of_mem (·.EinheitMastrNummer) h1)
      rw [if_neg (by
        rw [Bool.not_eq_true, beq_eq_false_iff_ne]
        exact fun he => hvne (hid ▸ he).symm)]
      exact ih r hnd.2 h1 hid

theorem applyUpdates_cases (us : List BasicUnit) (r : BasicUnit) :
    applyUpdates us r = r ∨ applyUpdates us r ∈ us := by
  induction us generalizing r with
  | nil => exact Or.inl rfl
  | cons v vs ih =>
    rw [applyUpdates_cons]
    by_cases h : (r.EinheitMastrNummer == v.EinheitMastrNummer) = true
    · rw [if_pos h]
      rcases ih v with h1 | h1
      · exact Or.inr (by rw [h1]; exact List.mem_cons_self v vs)
      · exact Or.inr (List.mem_cons_of_mem v h1)
    · rw [if_neg h]
      rcases ih r with h1 | h1
      · exact Or.inl h1
      · exact Or.inr (List.mem_cons_of_mem v h1)

theorem dedupChunk_subset (c : List BasicUnit) : ∀ x ∈ dedupChunk c, x ∈ c := by
  induction c with
  | nil => intro x hx; cases hx
  | cons u rest ih =>
    intro x hx
    rw [dedupChunk] at hx
    by_cases hdup : (rest.any fun v => v.EinheitMastrNummer == u.EinheitMastrNummer) = true
    · rw [if_pos hdup] at hx
      exact List.mem_cons_of_mem u (ih x hx)
    · rw [if_neg hdup] at hx
      rcases List.mem_cons.mp hx with h1 | h1
      · exact h1 ▸ List.mem_cons_self u rest
      · exact List.mem_cons_of_mem u (ih x h1)

theorem dedupChunk_nodup (c : List BasicUnit) :
    ((dedupChunk c).map (·.EinheitMastrNummer)).Nodup := by
  induction c with
  | nil => exact List.nodup_nil
  | cons u rest ih =>
    rw [dedupChunk]
    by_cases hdup : (rest.any fun v => v.EinheitMastrNummer == u.EinheitMastrNummer) = true
    · rw [if_pos hdup]
      exact ih
    · rw [if_neg hdup, List.map_cons, List.nodup_cons]
      refine ⟨fun hmem => ?_, ih⟩
      rw [List.mem_map] at hmem
      obtain ⟨x, hx, hxid⟩ := hmem
      rw [Bool.not_eq_true, List.any_eq_false] at hdup
      exact hdup x (dedupChunk_subset rest x hx) (by rw [beq_iff_eq]; exact hxid)

theorem backfillChunk_discard (now : Nat) (s : MirrorState) (u : BasicUnit)
    (hex : ∃ r ∈ s.basic_units, r.EinheitMastrNummer = u.EinheitMastrNummer)
    (hall : ∀ r ∈ s.basic_units, r.EinheitMastrNummer = u.EinheitMastrNummer →
      ¬ r.DatumLetzeAktualisierung < u.DatumLetzeAktualisierung) :
    backfillChunk now s [u] = s := by
  obtain ⟨r0, hr0, hid0⟩ := hex
  have hcom : isCommon s.basic_units u = true := by
    rw [isCommon, List.any_eq_true]
    exact ⟨r0, hr0, by rw [beq_iff_eq]; exact hid0⟩
  have hold : hasOlder s.basic_units u = false := by
    rw [hasOlder, List.any_eq_false]
    intro r hr
    by_cases hid : r.EinheitMastrNummer = u.EinheitMastrNummer
    · simp [hid, hall r hr hid]
    · simp [hid]
  have hins : insOf s [u] = [] := by
    rw [insOf, show dedupChunk [u] = [u] from rfl]
    simp [hcom]
  have hupd : updOf s [u] = [] := by
    rw [updOf, show dedupChunk [u] = [u] from rfl]
    simp [hold]
  cases s with
  | mk db reqs =>
    simp only [backfillChunk, hins, hupd]
    simp

theorem backfillChunk_insert (now : Nat) (s : MirrorState) (u : BasicUnit)
    (hno : ∀ r ∈ s.basic_units, r.EinheitMastrNummer ≠ u.EinheitMastrNummer) :
    (backfillChunk now s [u]).basic_units = s.basic_units ++ [u] := by
  have hcom : isCommon s.basic_units u = false := by
    rw [isCommon, List.any_eq_false]
    intro r hr
    rw [Bool.not_eq_true, beq_eq_false_iff_ne]
    exact hno r hr
  have hins : insOf s [u] = [u] := by
    rw [insOf, show dedupChunk [u] = [u] from rfl]
    simp [hcom]
  have hupd : updOf s [u] = [] := by
    rw [updOf, show dedupChunk [u] = [u] from rfl]
    simp [hcom]
  simp only [backfillChunk, hins, hupd]
  simp

theorem backfillChunk_update (now : Nat) (s : MirrorState) (u : BasicUnit)
    (hcom : isCommon s.basic_units u = true)
    (hold : hasOlder s.basic_units u = true) :
    (backfillChunk now s [u]).basic_units = mergeUnit s.basic_units u := by
  have hins : insOf s [u] = [] := by
    rw [insOf, show dedupChunk [u] = [u] from rfl]
    simp [hcom]
  have hupd : updOf s [u] = [u] := by
    rw [updOf, show dedupChunk [u] = [u] from rfl]
    simp [hcom, hold]
  simp only [backfillChunk, hins, hupd]
  simp

theorem backfillRun_cons (s : MirrorState) (c : List BasicUnit)
    (cs : List (List BasicUnit)) (now : Nat) :
    backfillRun s (c :: cs) now = backfillRun (backfillChunk now s c) cs (now + 1) := rfl

theorem backfillRun_nil (s : MirrorState) (now : Nat) :
    backfillRun s [] now = s := rfl

theorem backfillChunk_basic (now : Nat) (s : MirrorState) (c : List BasicUnit) :
    (backfillChunk now s c).basic_units =
      s.basic_units.map (applyUpdates (updOf s c)) ++ insOf s c := by
  simp only [backfillChunk]
  rw [foldl_mergeUnit]

theorem updOf_nodup (s : MirrorState) (c : List BasicUnit) :
    ((updOf s c).map (·.EinheitMastrNummer)).Nodup := by
  rw [updOf]
  exact ((List.filter_sublist _).map _).nodup (dedupChunk_nodup c)

theorem insOf_nodup (s : MirrorState) (c : List BasicUnit) :
    ((insOf s c).map (·.EinheitMastrNummer)).Nodup := by
  rw [insOf]
  exact ((List.filter_sublist _).map _).nodup (dedupChunk_nodup c)

theorem backfillChunk_nodup (now : Nat) (s : MirrorState) (c : List BasicUnit)
    (hnd : (s.basic_units.map (·.EinheitMastrNummer)).Nodup) :
    ((backfillChunk now s c).basic_units.map (·.EinheitMastrNummer)).Nodup := by
  rw [backfillChunk_basic, List.map_append, List.map_map]
  have hmc : s.basic_units.map ((·.EinheitMastrNummer) ∘ applyUpdates (updOf s c)) =
      s.basic_units.map (·.EinheitMastrNummer) :=
    List.map_congr_left (fun r _ => applyUpdates_id (updOf s c) r)
  rw [hmc]
  rw [List.nodup_append]
  refine ⟨hnd, insOf_nodup s c, ?_⟩
  intro a ha1 ha2
  rw [List.mem_map] at ha1 ha2
  obtain ⟨r, hr, hra⟩ := ha1
  obtain ⟨w, hw, hwa⟩ := ha2
  have hfil := List.mem_filter.mp (by rw [insOf] at hw; exact hw)
  have hcom : isCommon s.basic_units w = false := by
    have := hfil.2
    rwa [Bool.not_eq_true'] at this
  rw [isCommon, List.any_eq_false] at hcom
  exact hcom r hr (by rw [beq_iff_eq, hra, hwa])

/-- C1: monotonic merge of basic records — an incoming record whose id is
stored with no strictly older timestamp is discarded, leaving the state
unchanged (lines 236-245); for a fresh unit id, two records with
`t1 < t2` arriving in either order leave the record with `t2` stored; and
chunk processing preserves uniqueness of `EinheitMastrNummer` in
`basic_units`. -/
theorem claim_C1_monotonic_merge :
    (∀ (now : Nat) (s : MirrorState) (u : BasicUnit),
      (∃ r ∈ s.basic_units, r.EinheitMastrNummer = u.EinheitMastrNummer) →
      (∀ r ∈ s.basic_units, r.EinheitMastrNummer = u.EinheitMastrNummer →
        ¬ r.DatumLetzeAktualisierung < u.DatumLetzeAktualisierung) →
      backfillChunk now s [u] = s) ∧
    (∀ (s : MirrorState) (r1 r2 : BasicUnit) (n : Nat),
      r1.EinheitMastrNummer = r2.EinheitMastrNummer →
      r1.DatumLetzeAktualisierung < r2.DatumLetzeAktualisierung →
      (∀ r ∈ s.basic_units, r.EinheitMastrNummer ≠ r1.EinheitMastrNummer) →
      findBasic (backfillRun s [[r1], [r2]] n) r1.EinheitMastrNummer = some r2 ∧
      findBasic (backfillRun s [[r2], [r1]] n) r1.EinheitMastrNummer = some r2) ∧
    (∀ (now : Nat) (s : MirrorState) (c : List BasicUnit),
      (s.basic_units.map (·.EinheitMastrNummer)).Nodup →
      ((backfillChunk now s c).basic_units.map (·.EinheitMastrNummer)).Nodup) := by
  refine ⟨backfillChunk_discard, ?_, backfillChunk_nodup⟩
  intro s r1 r2 n hid hlt hno
  constructor
  · rw [backfillRun_cons, backfillRun_cons, backfillRun_nil]
    have hb1 : (backfillChunk n s [r1]).basic_units = s.basic_units ++ [r1] :=
      backfillChunk_insert n s r1 hno
    have hcom2 : isCommon (backfillChunk n s [r1]).basic_units r2 = true := by
      rw [hb1, isCommon, List.any_eq_true]
      exact ⟨r1, by simp, by rw [beq_iff_eq]; exact hid⟩
    have hold2 : hasOlder (backfillChunk n s [r1]).basic_units r2 = true := by
      rw [hb1, hasOlder, List.any_eq_true]
      refine ⟨r1, by simp, ?_⟩
      rw [Bool.and_eq_true, beq_iff_eq, decide_eq_true_eq]
      exact ⟨hid, hlt⟩
    rw [findBasic, backfillChunk_update (n + 1) _ r2 hcom2 hold2, hb1, mergeUnit,
      List.map_append, List.find?_append]
    have hdb : ((s.basic_units.map (fun r =>
        if r.EinheitMastrNummer == r2.EinheitMastrNummer then r2 else r)).find?
        (fun r => r.EinheitMastrNummer == r1.EinheitMastrNummer)) = none := by
      rw [List.find?_eq_none]
      intro x hx
      rw [List.mem_map] at hx
      obtain ⟨r, hr, hrx⟩ := hx
      have hre : (r.EinheitMastrNummer == r2.EinheitMastrNummer) = false := by
        rw [beq_eq_false_iff_ne]
        exact fun he => hno r hr (hid ▸ he)
      rw [if_neg (by rw [hre]; exact Bool.false_ne_true)] at hrx
      rw [← hrx, Bool.not_eq_true, beq_eq_false_iff_ne]
      exact hno r hr
    rw [hdb]
    have hgr1 : (if r1.EinheitMastrNummer == r2.EinheitMastrNummer then r2 else r1) = r2 := by
      rw [if_pos (by rw [beq_iff_eq]; exact hid)]
    simp only [List.map_cons, List.map_nil, hgr1, Option.none_or]
    rw [List.find?_cons_of_pos _ (by rw [beq_iff_eq]; exact hid.symm)]
  · rw [backfillRun_cons, backfillRun_cons, backfillRun_nil]
    have hno2 : ∀ r ∈ s.basic_units, r.EinheitMastrNummer ≠ r2.EinheitMastrNummer := by
      intro r hr
      rw [← hid]
      exact hno r hr
    have hb1 : (backfillChunk n s [r2]).basic_units = s.basic_units ++ [r2] :=
      backfillChunk_insert n s r2 hno2
    have hdis : backfillChunk (n + 1) (backfillChunk n s [r2]) [r1] =
        backfillChunk n s [r2] := by
      apply backfillChunk_discard
      · exact ⟨r2, by rw [hb1]; simp, hid.symm⟩
      · intro r hr hrid
        rw [hb1] at hr
        rcases List.mem_append.mp hr with h1 | h1
        · exact absurd hrid (hno r h1)
        · rw [List.mem_singleton] at h1
          subst h1
          exact Nat.lt_asymm hlt
    rw [hdis, findBasic, hb1, List.find?_append]
    have hdb : (s.basic_units.find?
        (fun r => r.EinheitMastrNummer == r1.EinheitMastrNummer)) = none := by
      rw [List.find?_eq_none]
      intro x hx
      rw [Bool.not_eq_true, beq_eq_false_iff_ne]
      exact hno x hx
    rw [hdb]
    simp only [Option.none_or]
    rw [List.find?_cons_of_pos _ (by rw [beq_iff_eq]; exact hid.symm)]

/-- C1 witness: a stored record with timestamp 5 discards an incoming
timestamp-3 record for the same id; starting from empty storage the
timestamp-5 record wins in both arrival orders; uniqueness is preserved on
a concrete chunk. -/
theorem claim_C1_monotonic_merge_witness :
    (backfillChunk 20 ⟨[cxU1b], []⟩ [cxU1a] = ⟨[cxU1b], []⟩) ∧
    (findBasic (backfillRun ⟨[], []⟩ [[cxU1a], [cxU1b]] 10)
        cxU1a.EinheitMastrNummer = some cxU1b ∧
      findBasic (backfillRun ⟨[], []⟩ [[cxU1b], [cxU1a]] 10)
        cxU1a.EinheitMastrNummer = some cxU1b) ∧
    (((backfillChunk 10 ⟨[cxU1b], []⟩ cxChunk2).basic_units.map
      (·.EinheitMastrNummer)).Nodup) :=
  ⟨claim_C1_monotonic_merge.1 20 ⟨[cxU1b], []⟩ cxU1a (by decide) (by decide),
   claim_C1_monotonic_merge.2.1 ⟨[], []⟩ cxU1a cxU1b 10 (by decide) (by decide)
     (by decide),
   claim_C1_monotonic_merge.2.2 10 ⟨[cxU1b], []⟩ cxChunk2 (by decide)⟩

theorem mem_updOf_iff (s : MirrorState) (c : List BasicUnit) (v : BasicUnit) :
    v ∈ updOf s c ↔ v ∈ dedupChunk c ∧
      (isCommon s.basic_units v && hasOlder s.basic_units v) = true := by
  rw [updOf]
  exact List.mem_filter

theorem mem_insOf_iff (s : MirrorState) (c : List BasicUnit) (v : BasicUnit) :
    v ∈ insOf s c ↔ v ∈ dedupChunk c ∧
      (!(isCommon s.basic_units v)) = true := by
  rw [insOf]
  exact List.mem_filter

theorem backfillChunk_noop (now : Nat) (s : MirrorState) (c : List BasicUnit)
    (h : ∀ u ∈ dedupChunk c, StoredGe s.basic_units u) :
    backfillChunk now s c = s := by
  have hins : insOf s c = [] := by
    rw [insOf, List.filter_eq_nil_iff]
    intro u hu
    obtain ⟨⟨r, hr, hrid⟩, -⟩ := h u hu
    have hc : isCommon s.basic_units u = true := by
      rw [isCommon, List.any_eq_true]
      exact ⟨r, hr, by rw [beq_iff_eq]; exact hrid⟩
    simp [hc]
  have hupd : updOf s c = [] := by
    rw [updOf, List.filter_eq_nil_iff]
    intro u hu
    obtain ⟨-, hall⟩ := h u hu
    have ho : hasOlder s.basic_units u = false := by
      rw [hasOlder, List.any_eq_false]
      intro r hr
      by_cases hid : r.EinheitMastrNummer = u.EinheitMastrNummer
      · simp [hid, Nat.not_lt.mpr (hall r hr hid)]
      · simp [hid]
    simp [ho]
  cases s with
  | mk db reqs =>
    simp only [backfillChunk, hins, hupd]
    simp

theorem backfillChunk_preserves (now : Nat) (s : MirrorState)
    (c : List BasicUnit) (u : BasicUnit) (h : StoredGe s.basic_units u) :
    StoredGe (backfillChunk now s c).basic_units u := by
  obtain ⟨⟨r0, hr0, hr0id⟩, hall⟩ := h
  rw [StoredGe, backfillChunk_basic]
  constructor
  · exact ⟨applyUpdates (updOf s c) r0,
      List.mem_append_left _ (List.mem_map_of_mem _ hr0),
      by rw [applyUpdates_id]; exact hr0id⟩
  · intro r hr hrid
    rcases List.mem_append.mp hr with hmem | hmem
    · rw [List.mem_map] at hmem
      obtain ⟨r', hr', hr'eq⟩ := hmem
      rcases applyUpdates_cases (updOf s c) r' with hcase | hcase
      · rw [← hr'eq, hcase] at hrid ⊢
        exact hall r' hr' hrid
      · rw [← hr'eq] at hrid ⊢
        have hvfil := (mem_updOf_iff s c _).mp hcase
        have hold' := hvfil.2
        rw [Bool.and_eq_true] at hold'
        have hold := hold'.2
        rw [hasOlder, List.any_eq_true] at hold
        obtain ⟨r1, hr1, hpred⟩ := hold
        rw [Bool.and_eq_true, beq_iff_eq, decide_eq_true_eq] at hpred
        have h1 : u.DatumLetzeAktualisierung ≤ r1.DatumLetzeAktualisierung :=
          hall r1 hr1 (by rw [hpred.1, hrid])
        omega
    · exfalso
      have hfil := (mem_insOf_iff s c _).mp hmem
      have hcom : isCommon s.basic_units r = false := by
        have := hfil.2
        rwa [Bool.not_eq_true'] at this
      rw [isCommon, List.any_eq_false] at hcom
      exact hcom r0 hr0 (by rw [beq_iff_eq, hr0id, ← hrid])

theorem backfillChunk_establishes (now : Nat) (s : MirrorState)
    (c : List BasicUnit) :
    ∀ u ∈ dedupChunk c, StoredGe (backfillChunk now s c).basic_units u := by
  intro u hu
  rw [StoredGe, backfillChunk_basic]
  by_cases hcom : isCommon s.basic_units u = true
  · rw [isCommon, List.any_eq_true] at hcom
    obtain ⟨r0, hr0, hr0id⟩ := hcom
    rw [beq_iff_eq] at hr0id
    by_cases hold : hasOlder s.basic_units u = true
    · have hupd : u ∈ updOf s c := by
        rw [mem_updOf_iff]
        refine ⟨hu, ?_⟩
        rw [Bool.and_eq_true]
        refine ⟨?_, hold⟩
        rw [isCommon, List.any_eq_true]
        exact ⟨r0, hr0, by rw [beq_iff_eq]; exact hr0id⟩
      constructor
      · refine ⟨applyUpdates (updOf s c) r0,
          List.mem_append_left _ (List.mem_map_of_mem _ hr0), ?_⟩
        rw [applyUpdates_hit (updOf s c) u r0 (updOf_nodup s c) hupd hr0id]
      · intro r hr hrid
        rcases List.mem_append.mp hr with hmem | hmem
        · rw [List.mem_map] at hmem
          obtain ⟨r', hr', hr'eq⟩ := hmem
          have hr'id : r'.EinheitMastrNummer = u.EinheitMastrNummer := by
            rw [← applyUpdates_id (updOf s c) r', hr'eq, hrid]
          rw [← hr'eq, applyUpdates_hit (updOf s c) u r' (updOf_nodup s c) hupd hr'id]
        · have hw := (mem_insOf_iff s c _).mp hmem
          have heq : r = u := List.inj_on_of_nodup_map (dedupChunk_nodup c)
            hw.1 hu hrid
          subst heq
          exfalso
          have := hw.2
          rw [Bool.not_eq_true'] at this
          rw [isCommon, List.any_eq_false] at this
          exact this r0 hr0 (by rw [beq_iff_eq]; exact hr0id)
    · constructor
      · exact ⟨applyUpdates (updOf s c) r0,
          List.mem_append_left _ (List.mem_map_of_mem _ hr0),
          by rw [applyUpdates_id]; exact hr0id⟩
      · intro r hr hrid
        rcases List.mem_append.mp hr with hmem | hmem
        · rw [List.mem_map] at hmem
          obtain ⟨r', hr', hr'eq⟩ := hmem
          rcases applyUpdates_cases (updOf s c) r' with hcase | hcase
          · rw [← hr'eq, hcase] at hrid ⊢
            rw [hasOlder] at hold
            rw [Bool.not_eq_true, List.any_eq_false] at hold
            have hne := hold r' hr'
            rw [Bool.and_eq_true, beq_iff_eq, decide_eq_true_eq] at hne
            have hle : ¬ r'.DatumLetzeAktualisierung < u.DatumLetzeAktualisierung :=
              fun hl => hne ⟨hrid, hl⟩
            omega
          · exfalso
            have hv := (mem_updOf_iff s c _).mp hcase
            have hvid : applyUpdates (updOf s c) r' = u := by
              apply List.inj_on_of_nodup_map (dedupChunk_nodup c) hv.1 hu
              rw [← hr'eq] at hrid
              exact hrid
            have hv2 := hv.2
            rw [hvid, Bool.and_eq_true] at hv2
            exact hold hv2.2
        · have hw := (mem_insOf_iff s c _).mp hmem
          have heq : r = u := List.inj_on_of_nodup_map (dedupChunk_nodup c)
            hw.1 hu hrid
          subst heq
          exfalso
          have := hw.2
          rw [Bool.not_eq_true'] at this
          rw [isCommon, List.any_eq_false] at this
          exact this r0 hr0 (by rw [beq_iff_eq]; exact hr0id)
  · have hcf : isCommon s.basic_units u = false := by
      rcases Bool.eq_false_or_eq_true (isCommon s.basic_units u) with h | h
      · exact absurd h hcom
      · exact h
    have hins : u ∈ insOf s c := by
      rw [mem_insOf_iff]
      exact ⟨hu, by rw [hcf]; rfl⟩
    constructor
    · exact ⟨u, List.mem_append_right _ hins, rfl⟩
    · intro r hr hrid
      rcases List.mem_append.mp hr with hmem | hmem
      · exfalso
        rw [List.mem_map] at hmem
        obtain ⟨r', hr', hr'eq⟩ := hmem
        have hr'id : r'.EinheitMastrNummer = u.EinheitMastrNummer := by
          rw [← applyUpdates_id (updOf s c) r', hr'eq, hrid]
        apply hcom
        rw [isCommon, List.any_eq_true]
        exact ⟨r', hr', by rw [beq_iff_eq]; exact hr'id⟩
      · have hw := (mem_insOf_iff s c _).mp hmem
        have heq : r = u := List.inj_on_of_nodup_map (dedupChunk_nodup c)
          hw.1 hu hrid
        rw [heq]

theorem backfillRun_preserves (chunks : List (List BasicUnit)) :
    ∀ (s : MirrorState) (n : Nat) (u : BasicUnit),
      StoredGe s.basic_units u →
      StoredGe (backfillRun s chunks n).basic_units u := by
  induction chunks with
  | nil => intro s n u h; exact h
  | cons c cs ih =>
    intro s n u h
    rw [backfillRun_cons]
    exact ih _ _ u (backfillChunk_preserves n s c u h)

theorem backfillRun_establishes (chunks : List (List BasicUnit)) :
    ∀ (s : MirrorState) (n : Nat), ∀ c ∈ chunks, ∀ u ∈ dedupChunk c,
      StoredGe (backfillRun s chunks n).basic_units u := by
  induction chunks with
  | nil => intro s n c hc; cases hc
  | cons c0 cs ih =>
    intro s n c hc u hu
    rw [backfillRun_cons]
    rcases List.mem_cons.mp hc with h1 | h1
    · subst h1
      exact backfillRun_preserves cs _ _ u (backfillChunk_establishes n s c u hu)
    · exact ih _ _ c h1 u hu

theorem backfillRun_noop (chunks : List (List BasicUnit)) :
    ∀ (s : MirrorState) (n : Nat),
      (∀ c ∈ chunks, ∀ u ∈ dedupChunk c, StoredGe s.basic_units u) →
      backfillRun s chunks n = s := by
  induction chunks with
  | nil => intro s n _; rfl
  | cons c0 cs ih =>
    intro s n h
    rw [backfillRun_cons,
      backfillChunk_noop n s c0 (h c0 (List.mem_cons_self c0 cs))]
    exact ih s (n + 1) (fun c hc u hu => h c (List.mem_cons_of_mem c0 hc) u hu)

/-- C8: idempotence of backfill — running the chunked backfill a second time
over the identical chunk sequence leaves the storage state (basic units and
fetch obligations) exactly as after the first run: every record of the
second run is strictly-not-newer than what the first run stored, so no
insert, no merge, no obligation delete and no obligation insert happens
(lines 214-321). -/
theorem claim_C8_idempotent (s : MirrorState) (chunks : List (List BasicUnit))
    (n0 n1 : Nat) :
    backfillRun (backfillRun s chunks n0) chunks n1 = backfillRun s chunks n0 :=
  backfillRun_noop chunks _ n1
    (fun c hc u hu => backfillRun_establishes chunks s n0 c hc u hu)

theorem natMax?_go (l : List Nat) (a : Nat) :
    l.foldl (fun acc d => some (acc.elim d (fun m => max m d))) (some a) =
      some (l.foldl max a) := by
  induction l generalizing a with
  | nil => rfl
  | cons x xs ih => exact ih (max a x)

theorem foldl_max_le (xs : List Nat) (a : Nat) :
    a ≤ xs.foldl max a ∧ ∀ x ∈ xs, x ≤ xs.foldl max a := by
  induction xs generalizing a with
  | nil => exact ⟨Nat.le_refl a, by intro x hx; cases hx⟩
  | cons x xs ih =>
    obtain ⟨h1, h2⟩ := ih (max a x)
    refine ⟨Nat.le_trans (Nat.le_max_left a x) h1, ?_⟩
    intro y hy
    rcases List.mem_cons.mp hy with h | h
    · subst h
      exact Nat.le_trans (Nat.le_max_right a y) h1
    · exact h2 y h

theorem foldl_max_mem (xs : List Nat) (a : Nat) :
    xs.foldl max a = a ∨ xs.foldl max a ∈ xs := by
  induction xs generalizing a with
  | nil => exact Or.inl rfl
  | cons x xs ih =>
    rcases ih (max a x) with h | h
    · rcases max_choice a x with hm | hm
      · exact Or.inl (by rw [List.foldl_cons, h, hm])
      · exact Or.inr (by rw [List.foldl_cons, h, hm]; exact List.mem_cons_self x xs)
    · exact Or.inr (List.mem_cons_of_mem x h)

theorem natMax?_spec (l : List Nat) (d : Nat) (h : natMax? l = some d) :
    d ∈ l ∧ ∀ x ∈ l, x ≤ d := by
  cases l with
  | nil => cases h
  | cons x xs =>
    rw [natMax?, List.foldl_cons] at h
    have hx : ((none : Option Nat).elim x (fun m => max m x)) = x := rfl
    rw [hx, natMax?_go] at h
    have hd : xs.foldl max x = d := Option.some.inj h
    subst hd
    constructor
    · rcases foldl_max_mem xs x with h1 | h1
      · rw [h1]; exact List.mem_cons_self x xs
      · exact List.mem_cons_of_mem x h1
    · intro y hy
      rcases List.mem_cons.mp hy with h1 | h1
      · subst h1
        exact (foldl_max_le xs y).1
      · exact (foldl_max_le xs x).2 y h1

/-- C9 amended: with `date = "latest"` and no technology given, the
watermark resolution fans out to exactly the distinct categories actually
present in storage, each paired with the true maximum stored
`DatumLetzeAktualisierung` of that category; a category with no stored rows
is not discovered in this mode (no fetch is issued for it); only when
technologies are explicitly specified does a category with no stored rows
resolve to an absent (`none`) watermark, which is handed to the fetch as a
full backfill. -/
theorem claim_C9_amended :
    (∀ (storage : List BasicUnit) (p : Option String × Option Nat),
      p ∈ resolveBackfillTargets storage none .latest →
      ∃ ty, ty ∈ storage.map (·.Einheittyp) ∧
        p = (some (mappedTech ty), newestDate storage ty)) ∧
    (∀ (storage : List BasicUnit) (ty : String),
      ty ∈ storage.map (·.Einheittyp) →
      (some (mappedTech ty), newestDate storage ty) ∈
        resolveBackfillTargets storage none .latest) ∧
    (∀ (storage : List BasicUnit) (t : String),
      (∀ u ∈ storage,
        u.Einheittyp ≠ (reversed_unit_type_map.lookup t).getD "") →
      resolveBackfillTargets storage (some [t]) .latest = [(some t, none)]) ∧
    (∀ (storage : List BasicUnit) (ty : String) (d : Nat),
      newestDate storage ty = some d →
      (∃ u ∈ storage, u.Einheittyp = ty ∧ u.DatumLetzeAktualisierung = d) ∧
      ∀ u ∈ storage, u.Einheittyp = ty → u.DatumLetzeAktualisierung ≤ d) := by
  refine ⟨?_, ?_, ?_, ?_⟩
  · intro storage p hp
    simp only [resolveBackfillTargets, distinctTypes, List.mem_map] at hp
    obtain ⟨ty, hty, hfp⟩ := hp
    exact ⟨ty, List.mem_dedup.mp hty, hfp.symm⟩
  · intro storage ty hty
    simp only [resolveBackfillTargets, distinctTypes, List.mem_map]
    exact ⟨ty, List.mem_dedup.mpr hty, rfl⟩
  · intro storage t h
    have hfil : storage.filter
        (fun u => u.Einheittyp == (reversed_unit_type_map.lookup t).getD "") = [] := by
      rw [List.filter_eq_nil_iff]
      intro u hu
      simpa using h u hu
    simp only [resolveBackfillTargets, List.map_cons, List.map_nil, newestDate, hfil]
    rfl
  · intro storage ty d h
    rw [newestDate] at h
    obtain ⟨hmem, hle⟩ := natMax?_spec _ d h
    constructor
    · rw [List.mem_map] at hmem
      obtain ⟨u, hu, hud⟩ := hmem
      rw [List.mem_filter] at hu
      exact ⟨u, hu.1, by simpa using hu.2, hud⟩
    · intro u hu hty
      refine hle u.DatumLetzeAktualisierung ?_
      rw [List.mem_map]
      refine ⟨u, ?_, rfl⟩
      rw [List.mem_filter]
      exact ⟨hu, by simp [hty]⟩

/-- C9 amended witness: with storage holding one wind unit — the fan-out
pair for wind with maximum 5 is produced and characterized, and the
specified-technology call for solar resolves to an absent watermark. -/
theorem claim_C9_amended_witness :
    (∃ ty, ty ∈ [cxWind].map (·.Einheittyp) ∧
      ((some "wind", some 5) : Option String × Option Nat) =
        (some (mappedTech ty), newestDate [cxWind] ty)) ∧
    ((some (mappedTech "Windeinheit"), newestDate [cxWind] "Windeinheit") ∈
      resolveBackfillTargets [cxWind] none .latest) ∧
    (resolveBackfillTargets [cxWind] (some ["solar"]) .latest =
      [(some "solar", none)]) ∧
    ((∃ u ∈ [cxWind], u.Einheittyp = "Windeinheit" ∧
        u.DatumLetzeAktualisierung = 5) ∧
      ∀ u ∈ [cxWind], u.Einheittyp = "Windeinheit" →
        u.DatumLetzeAktualisierung ≤ 5) :=
  ⟨claim_C9_amended.1 [cxWind] (some "wind", some 5) (by decide),
   claim_C9_amended.2.1 [cxWind] "Windeinheit" (by decide),
   claim_C9_amended.2.2.1 [cxWind] "solar" (by decide),
   claim_C9_amended.2.2.2 [cxWind] "Windeinheit" 5 (by decide)⟩

/-- C4: evaluating the bulk loader at a solar table that already holds five
rows shows the claimed first-file clear never happens: after loading
"Solar_1.xml" (20 rows) and "Solar_2.xml" (15 rows) the table holds the five
pre-existing rows plus all 35 new ones — `sqlalchemy.delete(table(...))` at
line 83 only constructs a statement object that is never executed.  On a
fresh table the scenario total of 35 rows still holds, which is what the
spec describes. -/
theorem claim_C4_first_file_replace :
    tableRowCount (convert_mastr_xml_to_sqlite cxRegistry noBad 5 ["solar"]
      cxDbPre cxEntries) "solar" = 40 ∧
    tableRows (convert_mastr_xml_to_sqlite cxRegistry noBad 5 ["solar"]
      cxDbPre cxEntries) "solar" =
      List.replicate 5 ["old"] ++ List.replicate 35 ["v"] ∧
    tableRowCount (convert_mastr_xml_to_sqlite cxRegistry noBad 5 ["solar"]
      cxDbFresh cxEntries) "solar" = 35 := by
  refine ⟨by decide, by decide, by decide⟩

theorem missingColumns_addCol (t : SqlTable) (df : DataFrame) (c : String) :
    missingColumns (add_missing_column_to_table t c) df =
      (missingColumns t df).filter (fun x => !(x == c)) := by
  unfold missingColumns add_missing_column_to_table
  rw [List.filter_filter]
  apply List.filter_congr
  intro x hx
  simp only [List.contains_eq_any_beq, List.any_append, Bool.not_or]
  have hsing : ([c].any fun y => x == y) = (x == c) := by simp
  rw [hsing, Bool.and_comm]

theorem mem_missing_of_find (t : SqlTable) (df : DataFrame) (c : String)
    (h : findMissingColumn t df = some c) : c ∈ missingColumns t df := by
  unfold findMissingColumn at h
  unfold missingColumns
  apply List.mem_filter.mpr
  have h1 := List.find?_some h
  exact ⟨List.mem_of_find?_eq_some h, h1⟩

theorem length_filter_ne_lt (l : List String) (c : String) (h : c ∈ l) :
    (l.filter (fun x => !(x == c))).length < l.length := by
  induction l with
  | nil => cases h
  | cons a as ih =>
    by_cases hac : (a == c) = true
    · rw [List.filter_cons_of_neg (by simp [hac])]
      have := List.length_filter_le (fun x => !(x == c)) as
      simp only [List.length_cons]
      omega
    · rw [List.filter_cons_of_pos (by simp [hac])]
      have hcas : c ∈ as := by
        rcases List.mem_cons.mp h with h1 | h1
        · subst h1
          simp at hac
        · exact h1
      simp only [List.length_cons]
      exact Nat.succ_lt_succ (ih hcas)

theorem writeLoop_missing_col_spec (bad : String → Bool) (df : DataFrame)
    (hb : findBadValue bad df = none) :
    ∀ fuel t, (missingColumns t df).length < fuel →
      (∃ t', (writeLoop bad fuel t df).1 = some t') ∧
      (writeLoop bad fuel t df).2.Nodup ∧
      ∀ x ∈ (writeLoop bad fuel t df).2, x ∈ missingColumns t df := by
  intro fuel
  induction fuel with
  | zero => intro t h; omega
  | succ n ih =>
    intro t h
    cases hf : findMissingColumn t df with
    | none =>
      have hts : to_sql bad t df = .success { t with rows := t.rows ++ df.rows } := by
        unfold to_sql
        rw [hf, hb]
      simp only [writeLoop, hts]
      exact ⟨⟨_, rfl⟩, List.nodup_nil, by intro x hx; cases hx⟩
    | some c =>
      have hts : to_sql bad t df = .opErr c := by
        unfold to_sql
        rw [hf]
      have hcm : c ∈ missingColumns t df := mem_missing_of_find t df c hf
      have hlt : (missingColumns (add_missing_column_to_table t c) df).length < n := by
        rw [missingColumns_addCol]
        have := length_filter_ne_lt (missingColumns t df) c hcm
        omega
      obtain ⟨⟨t', ht'⟩, hnd, hsub⟩ := ih (add_missing_column_to_table t c) hlt
      simp only [writeLoop, hts]
      refine ⟨⟨t', ht'⟩, ?_, ?_⟩
      · refine List.nodup_cons.mpr ⟨fun hcr => ?_, hnd⟩
        have := hsub c hcr
        rw [missingColumns_addCol] at this
        have := (List.mem_filter.mp this).2
        simp at this
      · intro x hx
        rcases List.mem_cons.mp hx with h1 | h1
        · rw [h1]; exact hcm
        · have := hsub x h1
          rw [missingColumns_addCol] at this
          exact (List.mem_filter.mp this).1

/-- C5: schema-evolution convergence of the write-retry loop — when the
DataFrame violates no value constraint and the fuel exceeds the number of
columns the table lacks, the loop terminates with a successful write; the
`ALTER TABLE` trace is duplicate-free (the additive schema change is
performed at most once per distinct missing-column name, because an added
column can never be reported missing again), every added column was indeed
missing, and a table missing at most one column converges after at most one
schema change (lines 139-150, 165-186). -/
theorem claim_C5_schema_evolution (bad : String → Bool) (t : SqlTable)
    (df : DataFrame) (fuel : Nat) (hb : findBadValue bad df = none)
    (hf : (missingColumns t df).length < fuel) :
    (∃ t', (writeLoop bad fuel t df).1 = some t') ∧
    (writeLoop bad fuel t df).2.Nodup ∧
    (∀ x ∈ (writeLoop bad fuel t df).2, x ∈ missingColumns t df) ∧
    ((missingColumns t df).length ≤ 1 → (writeLoop bad fuel t df).2.length ≤ 1) := by
  obtain ⟨h1, h2, h3⟩ := writeLoop_missing_col_spec bad df hb fuel t hf
  refine ⟨h1, h2, h3, fun hle => ?_⟩
  have hsp := (h2.subperm (fun x hx => h3 x hx)).length_le
  omega

/-- C5 witness: a table with column "a" and a DataFrame with columns
"a", "b": one missing column, a successful write after exactly one
`ALTER TABLE`. -/
theorem claim_C5_schema_evolution_witness :
    findBadValue noBad cxDf5 = none ∧ (missingColumns cxTable5 cxDf5).length < 3 ∧
    ((∃ t', (writeLoop noBad 3 cxTable5 cxDf5).1 = some t') ∧
    (writeLoop noBad 3 cxTable5 cxDf5).2.Nodup ∧
    (∀ x ∈ (writeLoop noBad 3 cxTable5 cxDf5).2, x ∈ missingColumns cxTable5 cxDf5) ∧
    ((missingColumns cxTable5 cxDf5).length ≤ 1 →
      (writeLoop noBad 3 cxTable5 cxDf5).2.length ≤ 1)) :=
  ⟨rfl, by decide, claim_C5_schema_evolution noBad cxTable5 cxDf5 3 rfl (by decide)⟩

/-- C6: the value-neutralization path is a no-op on the batch.
`delete_wrong_xml_entry` computes `df.replace(delete_entry, np.nan)` — a
frame that differs from the caller's — but binds it to the function-local
name only, so the caller resubmits the identical write: on a DataFrame
containing a constraint-violating value, the retry loop of lines 139-148
never terminates (its own print message claims the entry "was deleted"). -/
theorem claim_C6_neutralization_noop :
    dfReplace cxDf6 "bad" ≠ cxDf6 ∧
    delete_wrong_xml_entry "bad" cxDf6 = cxDf6 ∧
    ∀ fuel, (writeLoop cxBad6 fuel cxTable5 cxDf6).1 = none := by
  refine ⟨by decide, rfl, ?_⟩
  intro fuel
  induction fuel with
  | zero => rfl
  | succ n ih => exact ih

end OpenMastr

